import Mathlib

/-!
Verification of the auto-discover reconciliation engine of this repository.

The implementation crate is not present under the source tree (only its
integration test, `crates/agent/src/integration_tests/auto_discovers.rs`,
is).  The engine is therefore modelled from the specification (`spec.md`,
sections 3, 4.3, 4.4, 4.5, 6 and 7); every behavioural choice that the
specification leaves open, or on which it is internally inconsistent, is
pinned by the expectations of that integration test, which is the only
repository code available.
-/

namespace AutoDiscover

/-- Modelled from the spec: the identity-relevant part of a collection spec
missing from the source tree — its document schema (an opaque token) and its
key (an ordered sequence of JSON pointers).  Spec section 3. -/
structure CollectionSpec where
  schema : Nat
  key : List String
deriving DecidableEq, Repr

/-- Modelled from the spec: a capture binding — `resourceIdentity` (the stable
match key), the opaque resource config (modelled as an association list of
string fields), the target collection name, and the disable flag.
Spec section 3, `Binding`. -/
structure Binding where
  resourceIdentity : List String
  resourceConfig : List (String × String)
  target : String
  disable : Bool
deriving DecidableEq, Repr

/-- Modelled from the spec: a resource reported by the connector's discover
call.  Spec section 3, `DiscoveredResource`.  An empty `resourceIdentity`
means the connector did not supply one. -/
structure DiscoveredResource where
  recommendedName : String
  resourceConfig : List (String × String)
  documentSchema : Nat
  key : List String
  disable : Bool
  resourceIdentity : List String
deriving DecidableEq, Repr

/-- Modelled from the spec: one reported difference of a discover outcome.
Spec section 3, `DiscoverChange`. -/
structure DiscoverChange where
  resourcePath : List String
  target : String
  disable : Bool
deriving DecidableEq, Repr

/-- Modelled from the spec: a change reason attached to an incompatible
collection.  Spec section 3, `IncompatibleCollection`. -/
inductive ChangeReason
  | keyChange
  | partitionChange
deriving DecidableEq, Repr

/-- Modelled from the spec: a collection the build pipeline reports as
requiring recreation.  Spec section 3. -/
structure IncompatibleCollection where
  collection : String
  requiresRecreation : List ChangeReason
deriving DecidableEq, Repr

/-- Modelled from the spec: the terminal status of a publication submitted to
the build/test/activate pipeline.  Spec section 6. -/
inductive JobStatus
  | success
  | buildFailed (incompatibleCollections : List IncompatibleCollection)
deriving DecidableEq, Repr

/-- Modelled from the spec: an error record `{scope, catalogName, detail}`
carried by publication history entries and by failure outcomes.
Spec sections 3 and 6. -/
structure ErrorRecord where
  scope : String
  catalogName : String
  detail : String
deriving DecidableEq, Repr

/-- Modelled from the spec: the outcome of one completed discover attempt.
Spec section 3, `DiscoverOutcome`; the `errors` field carries a connector
error verbatim when the discover call itself failed (spec section 6). -/
structure DiscoverOutcome where
  ts : Nat
  added : List DiscoverChange
  modified : List DiscoverChange
  removed : List DiscoverChange
  publishResult : Option JobStatus
  errors : List ErrorRecord
deriving DecidableEq, Repr

/-- Modelled from the spec: the persisted record of a failure streak.
Spec section 3, `AutoDiscoverStatus.failure`. -/
structure FailureRecord where
  count : Nat
  firstTs : Nat
  lastOutcome : DiscoverOutcome
deriving DecidableEq, Repr

/-- Modelled from the spec: the persisted auto-discover status of a capture.
Spec section 3, `AutoDiscoverStatus` (the interval override is irrelevant to
the verified claims and omitted). -/
structure AutoDiscoverStatus where
  lastSuccess : Option DiscoverOutcome
  failure : Option FailureRecord
deriving DecidableEq, Repr

/-- Modelled from the spec: one entry of the append-only, newest-first
publication history.  Spec section 3, `PublicationHistoryEntry` (ids and
timestamps are generated externally and omitted). -/
structure HistoryEntry where
  detail : String
  result : JobStatus
  errors : List ErrorRecord
deriving DecidableEq, Repr

/-- Modelled from the spec: the part of a capture's live model that the
engine reads and rewrites — its binding list, together with the specs of the
collections those bindings target. -/
structure CaptureModel where
  bindings : List Binding
  collections : List (String × CollectionSpec)
deriving DecidableEq, Repr

/-- Modelled from the spec: a dependent materialization binding, reduced to
the part of its spec the evolution coordinator touches — the source
collection name and the backfill counter.  Spec sections 3 and 6. -/
structure MatBinding where
  source : String
  backfill : Nat
deriving DecidableEq, Repr

/-- Modelled from the spec: the auto-discover configuration of a capture,
together with the capture's tenant (used to derive new target names).
Spec section 3, `AutoDiscoverConfig`. -/
structure Config where
  tenant : String
  addNewBindings : Bool
  evolveIncompatibleCollections : Bool
deriving DecidableEq, Repr

/-- Modelled from the spec: the full durable state the controller owns for
one capture — the live model, the dependent materialization bindings it may
mark during evolution, the auto-discover status, and the newest-first
publication history. -/
structure ControllerState where
  model : CaptureModel
  matBindings : List MatBinding
  status : AutoDiscoverStatus
  history : List HistoryEntry
deriving DecidableEq, Repr

/-- Lookup of the first value bound to a key in an association list. -/
def lookupKey {α : Type} (k : String) : List (String × α) → Option α
  | [] => none
  | (k', v) :: rest => if k' = k then some v else lookupKey k rest

/-- Boolean membership of a resource identity in a list of identities. -/
def identMem (ident : List String) : List (List String) → Bool
  | [] => false
  | i :: rest => if i = ident then true else identMem ident rest

/-- First live binding whose `resourceIdentity` equals the given identity. -/
def findByIdentity (ident : List String) : List Binding → Option Binding
  | [] => none
  | b :: rest => if b.resourceIdentity = ident then some b else findByIdentity ident rest

/-- Name of the config field used as the fallback identity source. -/
def idField : String := "id"

/-- Modelled from the spec: identity resolution for a discovered resource
(spec section 4.2): a connector-supplied identity is used verbatim; otherwise
one is derived deterministically from the resource config (the `id` field
when present, else the ordered projection of all field values). -/
def resolveIdentity (d : DiscoveredResource) : List String :=
  if d.resourceIdentity ≠ [] then d.resourceIdentity
  else
    match lookupKey idField d.resourceConfig with
    | some v => [v]
    | none => d.resourceConfig.map Prod.snd

/-- Modelled from the spec: config merge for a matched pair (spec section
4.3): fields present in the live config always win; fields present only in
the discovered config are added. -/
def mergeConfig (live disc : List (String × String)) : List (String × String) :=
  live ++ disc.filter (fun kv => (lookupKey kv.fst live).isNone)

/-- Modelled from the spec: the merged binding of a matched pair.  The live
config wins field-by-field; identity and target are kept; the disable flag is
kept as the live value — the integration test (`auto_discovers.rs`, the
`update_only` scenario) shows the connector-reported disable flag has no
effect on an existing binding, whether it is enabled or disabled. -/
def mergeMatched (b : Binding) (d : DiscoveredResource) : Binding :=
  { b with resourceConfig := mergeConfig b.resourceConfig d.resourceConfig }

/-- Modelled from the spec: change detection for a matched pair — the pair is
reportable when the discovered document schema or key differs from the target
collection's current spec (a target with no collection counts as changed).
The integration test pins that config-only and disable-only differences are
not reportable. -/
def matchedChanged (colls : List (String × CollectionSpec)) (b : Binding)
    (d : DiscoveredResource) : Bool :=
  match lookupKey b.target colls with
  | some c => decide (c.schema ≠ d.documentSchema) || decide (c.key ≠ d.key)
  | none => true

/-- Collection and binding target names already in use by a capture model. -/
def usedNames (model : CaptureModel) : List String :=
  model.collections.map Prod.fst ++ model.bindings.map Binding.target

/-- Versioned name with an integer suffix, e.g. `name_v2`. -/
def versionedName (base : String) (n : Nat) : String :=
  base ++ "_v" ++ toString n

/-- Fuelled search for the first unused versioned name, starting at suffix 2.
Spec section 4.4: the next unused versioned name with an incrementing integer
suffix starting at 2. -/
def nextVersionNameAux (base : String) (used : List String) : Nat → Nat → String
  | 0, n => versionedName base n
  | fuel + 1, n =>
    let cand := versionedName base n
    if used.contains cand then nextVersionNameAux base used fuel (n + 1) else cand

/-- Modelled from the spec: the next unused versioned name for a collection.
Spec section 4.4. -/
def nextVersionName (base : String) (used : List String) : String :=
  nextVersionNameAux base used (used.length + 1) 2

/-- Modelled from the spec: derived target name for a brand-new binding, with
collision suffixing when the derived name is already in use (spec section
4.3). -/
def resolveTargetName (base : String) (used : List String) : String :=
  if used.contains base then nextVersionName base used else base

/-- Target collection name chosen for a discovered-only resource: the
capture's tenant joined with the recommended name, collision-suffixed against
the names already used by the model. -/
def newTarget (cfg : Config) (model : CaptureModel) (d : DiscoveredResource) : String :=
  resolveTargetName (cfg.tenant ++ "/" ++ d.recommendedName) (usedNames model)

/-- Modelled from the spec: the result binding produced for one discovered
resource — the merged binding for a matched pair, a fresh binding (carrying
the connector-reported disable flag) for a discovered-only resource when
`addNewBindings` is set, and nothing otherwise. -/
def mergeOne (cfg : Config) (model : CaptureModel) (d : DiscoveredResource) : Option Binding :=
  match findByIdentity (resolveIdentity d) model.bindings with
  | some b => some (mergeMatched b d)
  | none =>
    if cfg.addNewBindings then
      some { resourceIdentity := resolveIdentity d, resourceConfig := d.resourceConfig,
             target := newTarget cfg model d, disable := d.disable }
    else none

/-- Modelled from the spec: `added` changes of the merge outcome, in
discovered order — one entry per discovered-only resource when
`addNewBindings` is set, carrying the connector-reported disable flag. -/
def addedChanges (cfg : Config) (model : CaptureModel) (ds : List DiscoveredResource) :
    List DiscoverChange :=
  ds.filterMap (fun d =>
    match findByIdentity (resolveIdentity d) model.bindings with
    | some _ => none
    | none =>
      if cfg.addNewBindings then
        some ⟨resolveIdentity d, newTarget cfg model d, d.disable⟩
      else none)

/-- Modelled from the spec: `modified` changes of the merge outcome — one
entry per matched pair whose schema or key actually changed, carrying the
binding's (unchanged) disable flag, as the integration test pins. -/
def modifiedChanges (model : CaptureModel) (ds : List DiscoveredResource) :
    List DiscoverChange :=
  ds.filterMap (fun d =>
    match findByIdentity (resolveIdentity d) model.bindings with
    | some b =>
      if matchedChanged model.collections b d then
        some ⟨resolveIdentity d, b.target, b.disable⟩
      else none
    | none => none)

/-- Modelled from the spec: `removed` changes of the merge outcome — one
entry per live binding whose identity is absent from the discovered set,
regardless of its disable state (spec section 4.3). -/
def removedChanges (model : CaptureModel) (ds : List DiscoveredResource) :
    List DiscoverChange :=
  (model.bindings.filter
      (fun b => !(identMem b.resourceIdentity (ds.map resolveIdentity)))).map
    (fun b => ⟨b.resourceIdentity, b.target, b.disable⟩)

/-- Boolean test of whether a discovered resource is matched to the live
binding targeting the given collection. -/
def matchesTarget (model : CaptureModel) (t : String) (d : DiscoveredResource) : Bool :=
  match findByIdentity (resolveIdentity d) model.bindings with
  | some b => decide (b.target = t)
  | none => false

/-- First discovered resource matched to the live binding targeting the given
collection. -/
def findMatchedFor (model : CaptureModel) (t : String) :
    List DiscoveredResource → Option DiscoveredResource
  | [] => none
  | d :: rest => if matchesTarget model t d then some d else findMatchedFor model t rest

/-- Modelled from the spec: the schema and key of every collection targeted
by a matched binding are replaced with the discovered values (spec section
4.3); other collections are kept unchanged. -/
def updateCollections (model : CaptureModel) (ds : List DiscoveredResource) :
    List (String × CollectionSpec) :=
  model.collections.map (fun p =>
    match findMatchedFor model p.fst ds with
    | some d => (p.fst, ⟨d.documentSchema, d.key⟩)
    | none => p)

/-- Collection entries created for the bindings added this round. -/
def newCollections (cfg : Config) (model : CaptureModel) (ds : List DiscoveredResource) :
    List (String × CollectionSpec) :=
  ds.filterMap (fun d =>
    match findByIdentity (resolveIdentity d) model.bindings with
    | some _ => none
    | none =>
      if cfg.addNewBindings then
        some (newTarget cfg model d, ⟨d.documentSchema, d.key⟩)
      else none)

/-- Collections of the candidate draft model: matched targets updated with
the discovered schema and key, plus entries for added bindings. -/
def resultCollections (cfg : Config) (model : CaptureModel) (ds : List DiscoveredResource) :
    List (String × CollectionSpec) :=
  updateCollections model ds ++ newCollections cfg model ds

/-- Insertion of a binding into a list kept ordered by target name. -/
def insertByTarget (b : Binding) : List Binding → List Binding
  | [] => [b]
  | c :: rest =>
    if compare b.target c.target == Ordering.gt then c :: insertByTarget b rest
    else b :: c :: rest

/-- Insertion sort of a binding list by target name — the result binding list
is kept in a deterministic order (spec section 4.3). -/
def sortByTarget : List Binding → List Binding
  | [] => []
  | b :: rest => insertByTarget b (sortByTarget rest)

/-- Modelled from the spec: the merge outcome (spec section 4.3) — the three
change lists, together with the candidate new binding list (sorted by target)
and the candidate collections. -/
structure MergeResult where
  added : List DiscoverChange
  modified : List DiscoverChange
  removed : List DiscoverChange
  bindings : List Binding
  collections : List (String × CollectionSpec)
deriving DecidableEq, Repr

/-- Modelled from the spec: the binding merge engine (spec section 4.3).
Discovered resources are partitioned by resolved identity into matched,
discovered-only and live-only groups; matched pairs are merged field-by-field
with the live config winning, discovered-only resources are appended when
`addNewBindings` is set, and live-only bindings are removed always. -/
def mergeBindings (cfg : Config) (model : CaptureModel) (ds : List DiscoveredResource) :
    MergeResult :=
  { added := addedChanges cfg model ds,
    modified := modifiedChanges model ds,
    removed := removedChanges model ds,
    bindings := sortByTarget (ds.filterMap (mergeOne cfg model)),
    collections := resultCollections cfg model ds }

/-- Candidate draft model assembled from a merge result. -/
def mergeModel (cfg : Config) (model : CaptureModel) (ds : List DiscoveredResource) :
    CaptureModel :=
  { bindings := (mergeBindings cfg model ds).bindings,
    collections := (mergeBindings cfg model ds).collections }

/-- Modelled from the spec: the build pipeline's structured error for a
collection whose key changed (spec sections 6 and 7); the detail string is
the one the integration test observes. -/
def keyChangeError (name : String) : ErrorRecord :=
  { scope := "flow://collection/" ++ name, catalogName := name,
    detail := "collection key and logical partitioning may not be changed; a new collection must be created" }

/-- Modelled from the spec: the incompatible collections a draft would
produce — every draft collection whose key differs from the live collection
of the same name requires recreation with reason `keyChange` (spec sections
3 and 6). -/
def incompatibles (liveColls draftColls : List (String × CollectionSpec)) :
    List IncompatibleCollection :=
  draftColls.filterMap (fun p =>
    match lookupKey p.fst liveColls with
    | some lc => if lc.key ≠ p.snd.key then some ⟨p.fst, [ChangeReason.keyChange]⟩ else none
    | none => none)

/-- Modelled from the spec: the terminal status of submitting a draft to the
external build/test/activate pipeline (spec section 6): an injected build
error fails the build; otherwise the build fails exactly when some collection
key changed incompatibly, and succeeds otherwise. -/
def publishStatus (live draft : CaptureModel) (inject : Option String) : JobStatus :=
  match inject with
  | some _ => JobStatus.buildFailed []
  | none =>
    match incompatibles live.collections draft.collections with
    | [] => JobStatus.success
    | ics => JobStatus.buildFailed ics

/-- Error records attached to a publication attempt's history entry. -/
def publishErrors (live draft : CaptureModel) (inject : Option String) : List ErrorRecord :=
  match inject with
  | some e => [{ scope := "", catalogName := "", detail := e }]
  | none => (incompatibles live.collections draft.collections).map
      (fun ic => keyChangeError ic.collection)

/-- Modelled from the spec: recreation of one incompatible collection (spec
section 4.4): the draft's entry for the old name is reverted to the live
spec, the new key and schema move to the next unused versioned name, the
capture bindings targeting the old name are retargeted, and every dependent
materialization binding sourced from the old name is retargeted with its
backfill counter incremented. -/
def evolveOne (live : CaptureModel) (acc : CaptureModel × List MatBinding)
    (ic : IncompatibleCollection) : CaptureModel × List MatBinding :=
  let m := acc.fst
  let mats := acc.snd
  let old := ic.collection
  let newName := nextVersionName old (m.collections.map Prod.fst)
  let draftSpec := (lookupKey old m.collections).getD ⟨0, []⟩
  let colls :=
    (m.collections.map (fun p =>
      if p.fst = old then (old, (lookupKey old live.collections).getD p.snd) else p))
    ++ [(newName, draftSpec)]
  let binds := m.bindings.map (fun b => if b.target = old then { b with target := newName } else b)
  let mats' := mats.map (fun mb =>
    if mb.source = old then { source := newName, backfill := mb.backfill + 1 } else mb)
  (⟨binds, colls⟩, mats')

/-- Modelled from the spec: the evolution coordinator's rewrite of a draft
whose publication failed with incompatible collections (spec section 4.4). -/
def evolveModel (live draft : CaptureModel) (mats : List MatBinding)
    (ics : List IncompatibleCollection) : CaptureModel × List MatBinding :=
  ics.foldl (evolveOne live) (draft, mats)

/-- Modelled from the spec: the generated history detail string summarizing
change counts (spec section 4.5). -/
def detailString (a m r : Nat) : String :=
  "auto-discover changes (" ++ toString a ++ " added, " ++ toString m ++
    " modified, " ++ toString r ++ " removed)"

/-- Outcome recorded for a completed attempt that needed no publication. -/
def emptyOutcome (now : Nat) : DiscoverOutcome :=
  { ts := now, added := [], modified := [], removed := [], publishResult := none, errors := [] }

/-- Outcome recorded when the connector discover call itself failed; the
connector's message is surfaced verbatim (spec section 6). -/
def discoverErrorOutcome (now : Nat) (msg : String) : DiscoverOutcome :=
  { ts := now, added := [], modified := [], removed := [], publishResult := none,
    errors := [{ scope := "", catalogName := "", detail := msg }] }

/-- Outcome recorded for an attempt that submitted a publication. -/
def publishedOutcome (now : Nat) (r : MergeResult) (s : JobStatus) : DiscoverOutcome :=
  { ts := now, added := r.added, modified := r.modified, removed := r.removed,
    publishResult := some s, errors := [] }

/-- Modelled from the spec: failure bookkeeping (spec section 4.5): the count
is incremented (starting at 1), the first timestamp is set only for a new
streak, and the last outcome is replaced; `lastSuccess` is untouched. -/
def recordFailure (st : AutoDiscoverStatus) (outcome : DiscoverOutcome) (now : Nat) :
    AutoDiscoverStatus :=
  { lastSuccess := st.lastSuccess,
    failure := some
      { count := (match st.failure with | some f => f.count + 1 | none => 1),
        firstTs := (match st.failure with | some f => f.firstTs | none => now),
        lastOutcome := outcome } }

/-- Inputs of one discover cycle: the connector's answer (or its error), the
current time, and an optionally injected generic build failure for the first
publication attempt. -/
structure CycleInput where
  discoverResult : Except String (List DiscoveredResource)
  now : Nat
  injectedBuildError : Option String

/-- Modelled from the spec: the terminal state of one discover cycle in the
state machine of spec section 4.5. -/
inductive CycleTerminal
  | discoverFailed
  | noOpSuccess
  | publishSuccess
  | reportedFailure
deriving DecidableEq, Repr

/-- Modelled from the spec: one full discover cycle of the capture controller
(spec sections 4.3, 4.4 and 4.5), returning the next durable state together
with the terminal the cycle reached.  A connector error records a failure and
leaves everything else untouched; an empty outcome records a fresh
`lastSuccess` (with no publish result), appends no history entry and clears
any failure streak (the integration test pins that a no-op success clears the
failure record); a non-empty outcome is published, evolved and republished at
most once when authorized, and the result is committed or recorded as a
failure, each attempt appending one newest-first history entry. -/
def runCycleT (cfg : Config) (st : ControllerState) (inp : CycleInput) :
    ControllerState × CycleTerminal :=
  match inp.discoverResult with
  | Except.error msg =>
    ({ st with status := recordFailure st.status (discoverErrorOutcome inp.now msg) inp.now },
     CycleTerminal.discoverFailed)
  | Except.ok ds =>
    let r := mergeBindings cfg st.model ds
    if r.added.isEmpty && r.modified.isEmpty && r.removed.isEmpty then
      ({ st with status := { lastSuccess := some (emptyOutcome inp.now), failure := none } },
       CycleTerminal.noOpSuccess)
    else
      let draft : CaptureModel := { bindings := r.bindings, collections := r.collections }
      let detail := detailString r.added.length r.modified.length r.removed.length
      match publishStatus st.model draft inp.injectedBuildError with
      | JobStatus.success =>
        ({ model := draft, matBindings := st.matBindings,
           status := { lastSuccess := some (publishedOutcome inp.now r JobStatus.success),
                       failure := none },
           history := { detail := detail, result := JobStatus.success, errors := [] } :: st.history },
         CycleTerminal.publishSuccess)
      | JobStatus.buildFailed ics =>
        let entry1 : HistoryEntry :=
          { detail := detail, result := JobStatus.buildFailed ics,
            errors := publishErrors st.model draft inp.injectedBuildError }
        if cfg.evolveIncompatibleCollections && !ics.isEmpty then
          let ev := evolveModel st.model draft st.matBindings ics
          let detail2 := detail ++ ", and re-creating " ++ toString ics.length ++ " collections"
          match publishStatus st.model ev.fst none with
          | JobStatus.success =>
            ({ model := ev.fst, matBindings := ev.snd,
               status := { lastSuccess := some (publishedOutcome inp.now r JobStatus.success),
                           failure := none },
               history := { detail := detail2, result := JobStatus.success, errors := [] }
                 :: entry1 :: st.history },
             CycleTerminal.publishSuccess)
          | JobStatus.buildFailed ics2 =>
            ({ st with
               status := recordFailure st.status
                 (publishedOutcome inp.now r (JobStatus.buildFailed ics2)) inp.now,
               history := { detail := detail2, result := JobStatus.buildFailed ics2,
                            errors := publishErrors st.model ev.fst none }
                 :: entry1 :: st.history },
             CycleTerminal.reportedFailure)
        else
          ({ st with
             status := recordFailure st.status
               (publishedOutcome inp.now r (JobStatus.buildFailed ics)) inp.now,
             history := entry1 :: st.history },
           CycleTerminal.reportedFailure)

/-- State reached by one discover cycle. -/
def runCycle (cfg : Config) (st : ControllerState) (inp : CycleInput) : ControllerState :=
  (runCycleT cfg st inp).fst

/-- Terminal reached by one discover cycle. -/
def cycleTerminal (cfg : Config) (st : ControllerState) (inp : CycleInput) : CycleTerminal :=
  (runCycleT cfg st inp).snd

/-- Prior failure count of an optional failure record. -/
def failCount : Option FailureRecord → Nat
  | some f => f.count
  | none => 0

/-- First timestamp a failure streak keeps: the existing one, else now. -/
def failFirstTs : Option FailureRecord → Nat → Nat
  | some f, _ => f.firstTs
  | none, now => now

/-! Concrete scenario states mirroring the integration tests. -/

/-- Configuration of the evolution-disabled scenario (the `mules` capture of
the integration test `test_auto_discovers_no_evolution`). -/
def claim2Cfg : Config := ⟨("mules"), false, false⟩

/-- Live model of the evolution-disabled scenario: one binding `hey` whose
collection has key `[/id]`. -/
def claim2Model : CaptureModel :=
  ⟨[⟨[("hey")], [(("id"), ("hey"))], ("mules/hey"), false⟩],
   [(("mules/hey"), ⟨1, [("/id")]⟩)]⟩

/-- Discovered resource reporting the incompatibly changed key
`[/id, /squeaks]`. -/
def claim2KeyChanged : DiscoveredResource :=
  ⟨("hey"), [(("id"), ("hey"))], 1, [("/id"), ("/squeaks")], false, []⟩

/-- Discovered resource reporting the original key `[/id]`. -/
def claim2Orig : DiscoveredResource :=
  ⟨("hey"), [(("id"), ("hey"))], 1, [("/id")], false, []⟩

/-- Initial controller state of the evolution-disabled scenario. -/
def claim2State0 : ControllerState := ⟨claim2Model, [], ⟨none, none⟩, []⟩

/-- State after the cycle that discovers the changed key. -/
def claim2State1 : ControllerState :=
  runCycle claim2Cfg claim2State0 ⟨Except.ok [claim2KeyChanged], 10, none⟩

/-- State after the subsequent cycle that discovers the original key again. -/
def claim2State2 : ControllerState :=
  runCycle claim2Cfg claim2State1 ⟨Except.ok [claim2Orig], 20, none⟩

/-- Configuration of the evolution-enabled scenario (the `pikas` capture of
the integration test `test_auto_discovers_update_only`). -/
def claim1Cfg : Config := ⟨("pikas"), false, true⟩

/-- Live model of the evolution-enabled scenario: one binding `grass`
targeting `pikas/alpine-grass` with key `[/id]`. -/
def claim1Model : CaptureModel :=
  ⟨[⟨[("grass")], [(("id"), ("grass"))], ("pikas/alpine-grass"), false⟩],
   [(("pikas/alpine-grass"), ⟨2, [("/id")]⟩)]⟩

/-- Discovered resource whose key changed incompatibly to `[/id, /squeaks]`. -/
def claim1Discovered : DiscoveredResource :=
  ⟨("grass"), [(("id"), ("grass"))], 2, [("/id"), ("/squeaks")], false, []⟩

/-- Initial controller state of the evolution-enabled scenario, with one
dependent materialization binding sourced from the collection (backfill 0). -/
def claim1State0 : ControllerState :=
  ⟨claim1Model, [⟨("pikas/alpine-grass"), 0⟩], ⟨none, none⟩, []⟩

/-- State after the single controller run that discovers the changed key,
fails to publish, evolves and republishes. -/
def claim1State1 : ControllerState :=
  runCycle claim1Cfg claim1State0 ⟨Except.ok [claim1Discovered], 50, none⟩

/-- Configuration of the no-op counterexample scenario for the failure-state
behaviour of an empty outcome. -/
def claim3CxCfg : Config := ⟨("t"), false, false⟩

/-- Live model of the no-op counterexample: one binding whose collection
already matches what the connector reports. -/
def claim3CxModel : CaptureModel :=
  ⟨[⟨[("a")], [(("id"), ("a"))], ("t/a"), false⟩], [(("t/a"), ⟨1, [("/id")]⟩)]⟩

/-- Discovered resource identical to the live state (a no-op discover). -/
def claim3CxRes : DiscoveredResource := ⟨("a"), [(("id"), ("a"))], 1, [("/id")], false, []⟩

/-- Controller state carrying an existing failure streak before the no-op
cycle. -/
def claim3CxState : ControllerState :=
  ⟨claim3CxModel, [], ⟨some (emptyOutcome 1), some ⟨1, 0, emptyOutcome 0⟩⟩, []⟩

/-- Configuration of the idempotence witness scenario. -/
def claim3Cfg : Config := ⟨("t"), true, false⟩

/-- Live model of the idempotence witness scenario before the first merge. -/
def claim3Live : CaptureModel :=
  ⟨[⟨[("a")], [(("id"), ("a"))], ("t/a"), false⟩], [(("t/a"), ⟨1, [("/id")]⟩)]⟩

/-- Discovered set of the idempotence witness: a matched resource with a
schema change plus a brand-new resource. -/
def claim3Ds : List DiscoveredResource :=
  [⟨("a"), [(("id"), ("a"))], 2, [("/id")], false, []⟩,
   ⟨("b"), [(("id"), ("b"))], 1, [("/id")], false, []⟩]

/-- Controller state whose live model is the committed result of the first
merge, carrying a failure streak about to be cleared by the no-op. -/
def claim3State : ControllerState :=
  ⟨mergeModel claim3Cfg claim3Live claim3Ds, [], ⟨none, some ⟨2, 4, emptyOutcome 4⟩⟩, []⟩

/-! Helper lemmas about the association-list and search primitives. -/

theorem lookupKey_append {α : Type} (k : String) (l₁ l₂ : List (String × α)) :
    lookupKey k (l₁ ++ l₂) =
      (match lookupKey k l₁ with | some v => some v | none => lookupKey k l₂) := by
  induction l₁ with
  | nil => simp [lookupKey]
  | cons p rest ih =>
    obtain ⟨k', v⟩ := p
    by_cases h : k' = k <;> simp [lookupKey, h, ih]

theorem lookupKey_eq_none_of_not_mem {α : Type} {k : String} {l : List (String × α)}
    (h : ¬ k ∈ l.map Prod.fst) : lookupKey k l = none := by
  induction l with
  | nil => rfl
  | cons p rest ih =>
    obtain ⟨k', v⟩ := p
    simp only [List.map_cons, List.mem_cons] at h
    push_neg at h
    simp [lookupKey, Ne.symm h.1, ih h.2]

theorem lookupKey_of_mem_nodup {α : Type} {l : List (String × α)}
    (hnd : (l.map Prod.fst).Nodup) {k : String} {v : α} (hm : (k, v) ∈ l) :
    lookupKey k l = some v := by
  induction l with
  | nil => cases hm
  | cons p rest ih =>
    obtain ⟨k', v'⟩ := p
    simp only [List.map_cons, List.nodup_cons] at hnd
    rcases List.mem_cons.1 hm with heq | hmem
    · cases heq
      simp [lookupKey]
    · have hk : k' ≠ k := by
        intro h
        exact hnd.1 (h ▸ List.mem_map_of_mem Prod.fst hmem)
      simp [lookupKey, hk, ih hnd.2 hmem]

theorem identMem_iff {ident : List String} {l : List (List String)} :
    identMem ident l = true ↔ ident ∈ l := by
  induction l with
  | nil => simp [identMem]
  | cons i rest ih =>
    by_cases h : i = ident
    · subst h; simp [identMem]
    · simp [identMem, h, ih, Ne.symm h]

theorem findByIdentity_eq_some {ident : List String} {l : List Binding} {b : Binding}
    (h : findByIdentity ident l = some b) : b ∈ l ∧ b.resourceIdentity = ident := by
  induction l with
  | nil => cases h
  | cons c rest ih =>
    by_cases hc : c.resourceIdentity = ident
    · simp only [findByIdentity, if_pos hc] at h
      cases h
      exact ⟨List.mem_cons_self _ _, hc⟩
    · simp only [findByIdentity, if_neg hc] at h
      obtain ⟨hm, hi⟩ := ih h
      exact ⟨List.mem_cons_of_mem _ hm, hi⟩

theorem findByIdentity_eq_none {ident : List String} {l : List Binding}
    (h : findByIdentity ident l = none) : ∀ b ∈ l, b.resourceIdentity ≠ ident := by
  induction l with
  | nil => intro b hb; cases hb
  | cons c rest ih =>
    by_cases hc : c.resourceIdentity = ident
    · simp [findByIdentity, hc] at h
    · simp only [findByIdentity, if_neg hc] at h
      intro b hb
      rcases List.mem_cons.1 hb with rfl | hmem
      · exact hc
      · exact ih h b hmem

theorem findByIdentity_exists_of_mem {ident : List String} {l : List Binding} {b : Binding}
    (hb : b ∈ l) (hi : b.resourceIdentity = ident) :
    ∃ b', findByIdentity ident l = some b' := by
  induction l with
  | nil => cases hb
  | cons c rest ih =>
    by_cases hc : c.resourceIdentity = ident
    · exact ⟨c, by simp [findByIdentity, hc]⟩
    · rcases List.mem_cons.1 hb with rfl | hmem
      · exact absurd hi hc
      · obtain ⟨b', hb'⟩ := ih hmem
        exact ⟨b', by simp [findByIdentity, hc, hb']⟩

theorem mem_insertByTarget {b c : Binding} {l : List Binding} :
    c ∈ insertByTarget b l ↔ c = b ∨ c ∈ l := by
  induction l with
  | nil => simp [insertByTarget]
  | cons e rest ih =>
    by_cases h : compare b.target e.target == Ordering.gt
    · simp only [insertByTarget, if_pos h, List.mem_cons, ih]
      tauto
    · simp only [insertByTarget, if_neg h, List.mem_cons]

theorem mem_sortByTarget {b : Binding} {l : List Binding} :
    b ∈ sortByTarget l ↔ b ∈ l := by
  induction l with
  | nil => simp [sortByTarget]
  | cons c rest ih => simp [sortByTarget, mem_insertByTarget, ih]

theorem mem_mergeBindings_bindings {cfg : Config} {m : CaptureModel}
    {ds : List DiscoveredResource} {b' : Binding} :
    b' ∈ (mergeBindings cfg m ds).bindings ↔ ∃ d ∈ ds, mergeOne cfg m d = some b' := by
  simp [mergeBindings, mem_sortByTarget, List.mem_filterMap]

theorem mergeOne_identity {cfg : Config} {m : CaptureModel} {d : DiscoveredResource}
    {b' : Binding} (h : mergeOne cfg m d = some b') :
    b'.resourceIdentity = resolveIdentity d := by
  unfold mergeOne at h
  cases hf : findByIdentity (resolveIdentity d) m.bindings with
  | some b =>
    rw [hf] at h
    cases h
    exact (findByIdentity_eq_some hf).2
  | none =>
    rw [hf] at h
    by_cases ha : cfg.addNewBindings
    · simp only [ha, if_true] at h
      cases h
      rfl
    · simp [ha] at h

theorem mergeOne_eq_none {cfg : Config} {m : CaptureModel} {d : DiscoveredResource}
    (h : mergeOne cfg m d = none) : cfg.addNewBindings = false := by
  unfold mergeOne at h
  cases hf : findByIdentity (resolveIdentity d) m.bindings with
  | some b => rw [hf] at h; cases h
  | none =>
    rw [hf] at h
    by_cases ha : cfg.addNewBindings
    · simp [ha] at h
    · simpa using ha

theorem lookupKey_mergeConfig_live {live disc : List (String × String)} {k v : String}
    (h : lookupKey k live = some v) : lookupKey k (mergeConfig live disc) = some v := by
  unfold mergeConfig
  rw [lookupKey_append, h]

theorem lookupKey_filter_isNone (disc : List (String × String)) {live : List (String × String)}
    {k : String} (h : lookupKey k live = none) :
    lookupKey k (disc.filter (fun kv => (lookupKey kv.fst live).isNone)) = lookupKey k disc := by
  induction disc with
  | nil => rfl
  | cons p rest ih =>
    obtain ⟨k₁, v₁⟩ := p
    by_cases hk : k₁ = k
    · subst hk
      have hkeep : (lookupKey k₁ live).isNone = true := by rw [h]; rfl
      simp [List.filter_cons, hkeep, lookupKey]
    · by_cases hp : (lookupKey k₁ live).isNone = true
      · simp [List.filter_cons, hp, lookupKey, hk, ih]
      · simp [List.filter_cons, hp, lookupKey, hk, ih]

theorem lookupKey_mergeConfig_disc {live disc : List (String × String)} {k : String}
    (h : lookupKey k live = none) :
    lookupKey k (mergeConfig live disc) = lookupKey k disc := by
  unfold mergeConfig
  rw [lookupKey_append, h]
  exact lookupKey_filter_isNone disc h

/-- C5: when merging a matched binding's resource config, every key present
in the live config keeps the live value in the merged result, every key
present only in the discovered config is added with the discovered value, and
the merged binding really carries the field-by-field merge (the live config
is never wholesale replaced by the discovered one). -/
theorem claim5_config_merge_precedence (cfg : Config) (m : CaptureModel)
    (ds : List DiscoveredResource) (d : DiscoveredResource) (b : Binding)
    (hd : d ∈ ds) (hf : findByIdentity (resolveIdentity d) m.bindings = some b) :
    mergeMatched b d ∈ (mergeBindings cfg m ds).bindings ∧
    (mergeMatched b d).resourceConfig = mergeConfig b.resourceConfig d.resourceConfig ∧
    (∀ k v, lookupKey k b.resourceConfig = some v →
      lookupKey k (mergeConfig b.resourceConfig d.resourceConfig) = some v) ∧
    (∀ k, lookupKey k b.resourceConfig = none →
      lookupKey k (mergeConfig b.resourceConfig d.resourceConfig) = lookupKey k d.resourceConfig) := by
  refine ⟨?_, rfl, ?_, ?_⟩
  · exact mem_mergeBindings_bindings.2 ⟨d, hd, by simp [mergeOne, hf]⟩
  · intro k v h
    exact lookupKey_mergeConfig_live h
  · intro k h
    exact lookupKey_mergeConfig_disc h

/-- Witness for C5 at a concrete matched pair: the live value of the shared
field `id` survives the merge and the discovered-only field `extra` is
added. -/
theorem claim5_witness :
    lookupKey ("id") (mergeConfig [(("id"), ("live"))] [(("id"), ("disc")), (("extra"), ("new"))]) =
      some ("live") ∧
    lookupKey ("extra") (mergeConfig [(("id"), ("live"))] [(("id"), ("disc")), (("extra"), ("new"))]) =
      some ("new") :=
  ⟨(claim5_config_merge_precedence ⟨("t"), false, false⟩
      ⟨[⟨[("x")], [(("id"), ("live"))], ("t/x"), false⟩], []⟩
      [⟨("x"), [(("id"), ("disc")), (("extra"), ("new"))], 1, [], false, [("x")]⟩]
      ⟨("x"), [(("id"), ("disc")), (("extra"), ("new"))], 1, [], false, [("x")]⟩
      ⟨[("x")], [(("id"), ("live"))], ("t/x"), false⟩
      (by decide) (by decide)).2.2.1 ("id") ("live") (by decide),
   by
    have h := (claim5_config_merge_precedence ⟨("t"), false, false⟩
      ⟨[⟨[("x")], [(("id"), ("live"))], ("t/x"), false⟩], []⟩
      [⟨("x"), [(("id"), ("disc")), (("extra"), ("new"))], 1, [], false, [("x")]⟩]
      ⟨("x"), [(("id"), ("disc")), (("extra"), ("new"))], 1, [], false, [("x")]⟩
      ⟨[("x")], [(("id"), ("live"))], ("t/x"), false⟩
      (by decide) (by decide)).2.2.2 ("extra") (by decide)
    rw [h]
    decide⟩

/-- C7: every live binding whose identity is absent from the discovered set
is recorded in `removed` (with its own disable flag, whatever it is), no
binding with its identity survives into the result binding list, and the
removed list does not depend on the configuration (in particular not on
`addNewBindings`, which only gates additions). -/
theorem claim7_live_only_removed (cfg cfg' : Config) (m : CaptureModel)
    (ds : List DiscoveredResource) (b : Binding) (hb : b ∈ m.bindings)
    (habsent : ¬ b.resourceIdentity ∈ ds.map resolveIdentity) :
    (⟨b.resourceIdentity, b.target, b.disable⟩ : DiscoverChange) ∈
        (mergeBindings cfg m ds).removed ∧
    (∀ b' ∈ (mergeBindings cfg m ds).bindings, b'.resourceIdentity ≠ b.resourceIdentity) ∧
    (mergeBindings cfg m ds).removed = (mergeBindings cfg' m ds).removed := by
  refine ⟨?_, ?_, rfl⟩
  · show _ ∈ removedChanges m ds
    unfold removedChanges
    apply List.mem_map_of_mem
    refine List.mem_filter.2 ⟨hb, ?_⟩
    simp only [Bool.not_eq_true', ← Bool.not_eq_true, identMem_iff]
    simpa using habsent
  · intro b' hb' heq
    obtain ⟨d, hd, hmo⟩ := mem_mergeBindings_bindings.1 hb'
    have hid : b'.resourceIdentity = resolveIdentity d := mergeOne_identity hmo
    apply habsent
    rw [← heq, hid]
    exact List.mem_map_of_mem resolveIdentity hd

/-- Witness for C7: a disabled live-only binding is removed even with
`addNewBindings` both unset and set, and is recorded as removed. -/
theorem claim7_witness :
    (⟨[("x")], ("t/x"), true⟩ : DiscoverChange) ∈
      (mergeBindings ⟨("t"), false, false⟩ ⟨[⟨[("x")], [], ("t/x"), true⟩], []⟩ []).removed ∧
    (mergeBindings ⟨("t"), false, false⟩ ⟨[⟨[("x")], [], ("t/x"), true⟩], []⟩ []).removed =
      (mergeBindings ⟨("t"), true, true⟩ ⟨[⟨[("x")], [], ("t/x"), true⟩], []⟩ []).removed :=
  ⟨(claim7_live_only_removed ⟨("t"), false, false⟩ ⟨("t"), true, true⟩
      ⟨[⟨[("x")], [], ("t/x"), true⟩], []⟩ [] ⟨[("x")], [], ("t/x"), true⟩
      (by decide) (by decide)).1,
   (claim7_live_only_removed ⟨("t"), false, false⟩ ⟨("t"), true, true⟩
      ⟨[⟨[("x")], [], ("t/x"), true⟩], []⟩ [] ⟨[("x")], [], ("t/x"), true⟩
      (by decide) (by decide)).2.2⟩

/-- C10: a binding added for a discovered-only resource (with
`addNewBindings` set) preserves the connector-reported disable flag, both in
the appended binding and in its `added` change record. -/
theorem claim10_added_disable_preserved (cfg : Config) (m : CaptureModel)
    (ds : List DiscoveredResource) (d : DiscoveredResource)
    (hadd : cfg.addNewBindings = true) (hd : d ∈ ds)
    (hnew : findByIdentity (resolveIdentity d) m.bindings = none) :
    (⟨resolveIdentity d, newTarget cfg m d, d.disable⟩ : DiscoverChange) ∈
        (mergeBindings cfg m ds).added ∧
    ({ resourceIdentity := resolveIdentity d, resourceConfig := d.resourceConfig,
       target := newTarget cfg m d, disable := d.disable } : Binding) ∈
        (mergeBindings cfg m ds).bindings := by
  constructor
  · show _ ∈ addedChanges cfg m ds
    unfold addedChanges
    exact List.mem_filterMap.2 ⟨d, hd, by simp [hnew, hadd]⟩
  · exact mem_mergeBindings_bindings.2 ⟨d, hd, by simp [mergeOne, hnew, hadd]⟩

/-- Witness for C10: a brand-new resource discovered with `disable = true` is
appended already disabled and its added record carries `disable = true`; an
enabled one is appended enabled. -/
theorem claim10_witness :
    (⟨[("m")], ("t/moss"), true⟩ : DiscoverChange) ∈
      (mergeBindings ⟨("t"), true, false⟩ ⟨[], []⟩
        [⟨("moss"), [], 1, [], true, [("m")]⟩, ⟨("grass"), [], 1, [], false, [("g")]⟩]).added ∧
    (⟨[("g")], ("t/grass"), false⟩ : DiscoverChange) ∈
      (mergeBindings ⟨("t"), true, false⟩ ⟨[], []⟩
        [⟨("moss"), [], 1, [], true, [("m")]⟩, ⟨("grass"), [], 1, [], false, [("g")]⟩]).added :=
  ⟨(claim10_added_disable_preserved ⟨("t"), true, false⟩ ⟨[], []⟩
      [⟨("moss"), [], 1, [], true, [("m")]⟩, ⟨("grass"), [], 1, [], false, [("g")]⟩]
      ⟨("moss"), [], 1, [], true, [("m")]⟩ rfl (by decide) (by decide)).1,
   (claim10_added_disable_preserved ⟨("t"), true, false⟩ ⟨[], []⟩
      [⟨("moss"), [], 1, [], true, [("m")]⟩, ⟨("grass"), [], 1, [], false, [("g")]⟩]
      ⟨("grass"), [], 1, [], false, [("g")]⟩ rfl (by decide) (by decide)).1⟩

theorem mem_modifiedChanges {m : CaptureModel} {ds : List DiscoveredResource}
    {ch : DiscoverChange} :
    ch ∈ modifiedChanges m ds ↔
      ∃ d ∈ ds, ∃ b, findByIdentity (resolveIdentity d) m.bindings = some b ∧
        matchedChanged m.collections b d = true ∧
        ch = ⟨resolveIdentity d, b.target, b.disable⟩ := by
  simp only [modifiedChanges, List.mem_filterMap]
  constructor
  · rintro ⟨d, hd, hfd⟩
    refine ⟨d, hd, ?_⟩
    cases hf : findByIdentity (resolveIdentity d) m.bindings with
    | none => simp [hf] at hfd
    | some b =>
      simp only [hf] at hfd
      by_cases hch : matchedChanged m.collections b d
      · rw [if_pos hch] at hfd
        cases hfd
        exact ⟨b, rfl, hch, rfl⟩
      · rw [if_neg hch] at hfd
        cases hfd
  · rintro ⟨d, hd, b, hf, hch, rfl⟩
    exact ⟨d, hd, by simp [hf, hch]⟩

/-- C4: once a live binding is disabled, no discover flips it back — every
result binding carrying its identity is still disabled, whatever disable
value the connector reports; and when the matched resource changes nothing
reportable (schema and key unchanged), the disabled binding contributes no
modified entry either. -/
theorem claim4_disable_sticky (cfg : Config) (m : CaptureModel)
    (ds : List DiscoveredResource) (b : Binding)
    (hL : (m.bindings.map Binding.resourceIdentity).Nodup)
    (hb : b ∈ m.bindings) (hdis : b.disable = true) :
    (∀ b' ∈ (mergeBindings cfg m ds).bindings,
        b'.resourceIdentity = b.resourceIdentity → b'.disable = true) ∧
    ((∀ d ∈ ds, resolveIdentity d = b.resourceIdentity →
        matchedChanged m.collections b d = false) →
      ∀ ch ∈ (mergeBindings cfg m ds).modified, ch.resourcePath ≠ b.resourceIdentity) := by
  constructor
  · intro b' hb' heq
    obtain ⟨d, hd, hmo⟩ := mem_mergeBindings_bindings.1 hb'
    unfold mergeOne at hmo
    cases hf : findByIdentity (resolveIdentity d) m.bindings with
    | some b₀ =>
      rw [hf] at hmo
      cases hmo
      obtain ⟨hb₀mem, hb₀id⟩ := findByIdentity_eq_some hf
      have hbb : b₀ = b := by
        apply List.inj_on_of_nodup_map hL hb₀mem hb
        exact heq
      rw [show (mergeMatched b₀ d).disable = b₀.disable from rfl, hbb, hdis]
    | none =>
      rw [hf] at hmo
      by_cases ha : cfg.addNewBindings
      · simp only [ha, if_true] at hmo
        cases hmo
        exact absurd heq.symm (findByIdentity_eq_none hf b hb)
      · simp [ha] at hmo
  · intro hcond ch hch heq
    obtain ⟨d, hd, b₀, hf, hchanged, rfl⟩ := mem_modifiedChanges.1 hch
    have hid : resolveIdentity d = b.resourceIdentity := heq
    obtain ⟨hb₀mem, hb₀id⟩ := findByIdentity_eq_some hf
    have hbb : b₀ = b := List.inj_on_of_nodup_map hL hb₀mem hb (hb₀id.trans hid)
    rw [hbb] at hchanged
    rw [hcond d hd hid] at hchanged
    cases hchanged

/-- Witness for C4: a disabled binding matched by an enabled discovered
resource (schema and key unchanged) stays disabled and the modified list has
no entry for it. -/
theorem claim4_witness :
    (⟨[("x")], [], ("t/x"), true⟩ : Binding).disable = true ∧
    (⟨[("y")], ("t/y"), false⟩ : DiscoverChange).resourcePath ≠ ([("x")] : List String) :=
  ⟨(claim4_disable_sticky ⟨("t"), false, false⟩
      ⟨[⟨[("x")], [], ("t/x"), true⟩, ⟨[("y")], [], ("t/y"), false⟩],
       [(("t/x"), ⟨1, [("/id")]⟩), (("t/y"), ⟨1, [("/id")]⟩)]⟩
      [⟨("x"), [], 1, [("/id")], false, [("x")]⟩, ⟨("y"), [], 2, [("/id")], false, [("y")]⟩]
      ⟨[("x")], [], ("t/x"), true⟩ (by decide) (by decide) (by decide)).1
      ⟨[("x")], [], ("t/x"), true⟩ (by decide) (by decide),
   (claim4_disable_sticky ⟨("t"), false, false⟩
      ⟨[⟨[("x")], [], ("t/x"), true⟩, ⟨[("y")], [], ("t/y"), false⟩],
       [(("t/x"), ⟨1, [("/id")]⟩), (("t/y"), ⟨1, [("/id")]⟩)]⟩
      [⟨("x"), [], 1, [("/id")], false, [("x")]⟩, ⟨("y"), [], 2, [("/id")], false, [("y")]⟩]
      ⟨[("x")], [], ("t/x"), true⟩ (by decide) (by decide) (by decide)).2
      (by decide) ⟨[("y")], ("t/y"), false⟩ (by decide)⟩

/-- C6 counterexample: a live binding that is enabled does NOT become
disabled when the connector reports `disable = true` for the matched
resource, and the disable-flag difference produces no modified entry — the
connector-reported disable flag is ignored for matched bindings, exactly as
the integration test `test_auto_discovers_update_only` expects (its only
modified entry is the schema change, reported with `disable = false`). -/
theorem claim6_counterexample :
    (mergeBindings ⟨("t"), false, false⟩
        ⟨[⟨[("a")], [], ("t/a"), false⟩], [(("t/a"), ⟨1, [("/id")]⟩)]⟩
        [⟨("a"), [], 1, [("/id")], true, [("a")]⟩]).bindings =
      [⟨[("a")], [], ("t/a"), false⟩] ∧
    (mergeBindings ⟨("t"), false, false⟩
        ⟨[⟨[("a")], [], ("t/a"), false⟩], [(("t/a"), ⟨1, [("/id")]⟩)]⟩
        [⟨("a"), [], 1, [("/id")], true, [("a")]⟩]).modified = [] := by
  decide

/-- C6 as amended: a matched binding's disable flag is never changed by a
discover (the connector-reported disable value is ignored for matched
bindings), and a matched pair is recorded as modified exactly when the
schema or key actually changes; config-only or disable-only differences
never produce a modified entry. -/
theorem claim6_matched_disable_ignored (cfg : Config) (m : CaptureModel)
    (ds : List DiscoveredResource) (d : DiscoveredResource) (b : Binding)
    (hL : (m.bindings.map Binding.resourceIdentity).Nodup)
    (hds : (ds.map resolveIdentity).Nodup)
    (hd : d ∈ ds) (hf : findByIdentity (resolveIdentity d) m.bindings = some b) :
    (∀ b' ∈ (mergeBindings cfg m ds).bindings,
        b'.resourceIdentity = b.resourceIdentity → b'.disable = b.disable) ∧
    ((∃ ch ∈ (mergeBindings cfg m ds).modified, ch.resourcePath = resolveIdentity d) ↔
      matchedChanged m.collections b d = true) := by
  constructor
  · intro b' hb' heq
    obtain ⟨d', hd', hmo⟩ := mem_mergeBindings_bindings.1 hb'
    unfold mergeOne at hmo
    cases hf' : findByIdentity (resolveIdentity d') m.bindings with
    | some b₀ =>
      rw [hf'] at hmo
      cases hmo
      obtain ⟨hb₀mem, hb₀id⟩ := findByIdentity_eq_some hf'
      obtain ⟨hbmem, hbid⟩ := findByIdentity_eq_some hf
      have hbb : b₀ = b := List.inj_on_of_nodup_map hL hb₀mem hbmem heq
      rw [show (mergeMatched b₀ d').disable = b₀.disable from rfl, hbb]
    | none =>
      rw [hf'] at hmo
      by_cases ha : cfg.addNewBindings
      · simp only [ha, if_true] at hmo
        cases hmo
        obtain ⟨hbmem, hbid⟩ := findByIdentity_eq_some hf
        exact absurd heq.symm (findByIdentity_eq_none hf' b hbmem)
      · simp [ha] at hmo
  · constructor
    · rintro ⟨ch, hch, hpath⟩
      obtain ⟨d', hd', b₀, hf', hchanged, rfl⟩ := mem_modifiedChanges.1 hch
      have hdd : d' = d := by
        apply List.inj_on_of_nodup_map hds hd' hd
        exact hpath
      rw [hdd] at hf'
      rw [hf] at hf'
      cases hf'
      rw [hdd] at hchanged
      exact hchanged
    · intro hchanged
      exact ⟨⟨resolveIdentity d, b.target, b.disable⟩,
        mem_modifiedChanges.2 ⟨d, hd, b, hf, hchanged, rfl⟩, rfl⟩

/-- Witness for C6's amended theorem: at a concrete matched pair with a
schema change, the merged binding keeps the live (enabled) disable flag even
though the connector reported `disable = true`, and the pair counts as
changed. -/
theorem claim6_witness :
    (⟨[("a")], [(("k"), ("v"))], ("t/a"), false⟩ : Binding).disable =
      (⟨[("a")], [], ("t/a"), false⟩ : Binding).disable ∧
    matchedChanged [(("t/a"), ⟨1, [("/id")]⟩)] ⟨[("a")], [], ("t/a"), false⟩
      ⟨("a"), [(("k"), ("v"))], 2, [("/id")], true, [("a")]⟩ = true :=
  ⟨(claim6_matched_disable_ignored ⟨("t"), false, false⟩
      ⟨[⟨[("a")], [], ("t/a"), false⟩], [(("t/a"), ⟨1, [("/id")]⟩)]⟩
      [⟨("a"), [(("k"), ("v"))], 2, [("/id")], true, [("a")]⟩]
      ⟨("a"), [(("k"), ("v"))], 2, [("/id")], true, [("a")]⟩
      ⟨[("a")], [], ("t/a"), false⟩
      (by decide) (by decide) (by decide) (by decide)).1
      ⟨[("a")], [(("k"), ("v"))], ("t/a"), false⟩ (by decide) (by decide),
   (claim6_matched_disable_ignored ⟨("t"), false, false⟩
      ⟨[⟨[("a")], [], ("t/a"), false⟩], [(("t/a"), ⟨1, [("/id")]⟩)]⟩
      [⟨("a"), [(("k"), ("v"))], 2, [("/id")], true, [("a")]⟩]
      ⟨("a"), [(("k"), ("v"))], 2, [("/id")], true, [("a")]⟩
      ⟨[("a")], [], ("t/a"), false⟩
      (by decide) (by decide) (by decide) (by decide)).2.1 (by decide)⟩

/-- C9: a connector discover error ends the cycle with a fresh failure
record of count 1 and first timestamp now, whose outcome surfaces the
connector's message verbatim as the first error detail; `lastSuccess` (and
the history) are left unchanged. -/
theorem claim9_discover_error (cfg : Config) (st : ControllerState) (inp : CycleInput)
    (msg : String) (herr : inp.discoverResult = Except.error msg)
    (hfresh : st.status.failure = none) :
    (runCycle cfg st inp).status.failure =
      some ⟨1, inp.now, discoverErrorOutcome inp.now msg⟩ ∧
    (discoverErrorOutcome inp.now msg).errors.map ErrorRecord.detail = [msg] ∧
    (runCycle cfg st inp).status.lastSuccess = st.status.lastSuccess ∧
    (runCycle cfg st inp).history = st.history := by
  unfold runCycle runCycleT
  rw [herr]
  refine ⟨?_, by simp [discoverErrorOutcome], ?_, rfl⟩
  · simp [recordFailure, hfresh]
  · simp [recordFailure]

/-- Witness for C9 at a concrete connector error. -/
theorem claim9_witness :
    (runCycle ⟨("t"), false, false⟩
      ⟨⟨[], []⟩, [], ⟨some (emptyOutcome 3), none⟩, []⟩
      ⟨Except.error ("a simulated discover error"), 7, none⟩).status.failure =
      some ⟨1, 7, discoverErrorOutcome 7 ("a simulated discover error")⟩ ∧
    (runCycle ⟨("t"), false, false⟩
      ⟨⟨[], []⟩, [], ⟨some (emptyOutcome 3), none⟩, []⟩
      ⟨Except.error ("a simulated discover error"), 7, none⟩).status.lastSuccess =
      some (emptyOutcome 3) :=
  ⟨(claim9_discover_error ⟨("t"), false, false⟩
      ⟨⟨[], []⟩, [], ⟨some (emptyOutcome 3), none⟩, []⟩
      ⟨Except.error ("a simulated discover error"), 7, none⟩
      ("a simulated discover error") rfl rfl).1,
   (claim9_discover_error ⟨("t"), false, false⟩
      ⟨⟨[], []⟩, [], ⟨some (emptyOutcome 3), none⟩, []⟩
      ⟨Except.error ("a simulated discover error"), 7, none⟩
      ("a simulated discover error") rfl rfl).2.2.1⟩

theorem recordFailure_failure (s : AutoDiscoverStatus) (o : DiscoverOutcome) (now : Nat) :
    (recordFailure s o now).failure =
      some ⟨failCount s.failure + 1, failFirstTs s.failure now, o⟩ := by
  cases hsf : s.failure <;> simp [recordFailure, failCount, failFirstTs, hsf]

/-- C8: failure counting is monotonic — whenever a cycle ends with a failure
record, its count is the prior count plus one and its first timestamp is the
prior streak's first timestamp (or now for a fresh streak, so the timestamp
is never reset mid-streak); and every cycle that reaches a successful
terminal (no-op or published) resets the failure record to absent. -/
theorem claim8_failure_monotonic (cfg : Config) (st : ControllerState) (inp : CycleInput) :
    ((cycleTerminal cfg st inp = CycleTerminal.noOpSuccess ∨
      cycleTerminal cfg st inp = CycleTerminal.publishSuccess) →
      (runCycle cfg st inp).status.failure = none) ∧
    (∀ f', (runCycle cfg st inp).status.failure = some f' →
      f'.count = failCount st.status.failure + 1 ∧
      f'.firstTs = failFirstTs st.status.failure inp.now) := by
  unfold runCycle cycleTerminal runCycleT
  obtain ⟨dr, now, inj⟩ := inp
  cases dr with
  | error msg =>
    refine ⟨?_, ?_⟩
    · rintro (h | h) <;> simp at h
    · intro f' hf'
      simp only [recordFailure_failure] at hf'
      cases hf'
      exact ⟨rfl, rfl⟩
  | ok ds =>
    simp only
    split
    · exact ⟨fun _ => rfl, fun f' hf' => by simp at hf'⟩
    · split
      · exact ⟨fun _ => rfl, fun f' hf' => by simp at hf'⟩
      · split
        · split
          · exact ⟨fun _ => rfl, fun f' hf' => by simp at hf'⟩
          · refine ⟨?_, ?_⟩
            · rintro (h | h) <;> simp at h
            · intro f' hf'
              simp only [recordFailure_failure] at hf'
              cases hf'
              exact ⟨rfl, rfl⟩
        · refine ⟨?_, ?_⟩
          · rintro (h | h) <;> simp at h
          · intro f' hf'
            simp only [recordFailure_failure] at hf'
            cases hf'
            exact ⟨rfl, rfl⟩

/-- Witness for C8: a successful no-op cycle clears an existing failure
record, and a failing cycle on a streak of count 1 produces count 2 while
keeping the streak's first timestamp 5. -/
theorem claim8_witness :
    (runCycle ⟨("t"), false, false⟩
      ⟨⟨[], []⟩, [], ⟨none, some ⟨1, 5, emptyOutcome 5⟩⟩, []⟩
      ⟨Except.ok [], 9, none⟩).status.failure = none ∧
    (⟨2, 5, discoverErrorOutcome 9 ("boom")⟩ : FailureRecord).count = 1 + 1 ∧
    (⟨2, 5, discoverErrorOutcome 9 ("boom")⟩ : FailureRecord).firstTs = 5 :=
  ⟨(claim8_failure_monotonic ⟨("t"), false, false⟩
      ⟨⟨[], []⟩, [], ⟨none, some ⟨1, 5, emptyOutcome 5⟩⟩, []⟩
      ⟨Except.ok [], 9, none⟩).1 (Or.inl (by decide)),
   (claim8_failure_monotonic ⟨("t"), false, false⟩
      ⟨⟨[], []⟩, [], ⟨none, some ⟨1, 5, emptyOutcome 5⟩⟩, []⟩
      ⟨Except.error ("boom"), 9, none⟩).2
      ⟨2, 5, discoverErrorOutcome 9 ("boom")⟩ (by decide)⟩

/-- C2: with evolution disabled, a discover whose key changed incompatibly
ends in a reported failure whose publish result carries exactly one
`IncompatibleCollection` with `requiresRecreation = [keyChange]`, the failure
count increments (here from absent to 1), the live model is not mutated, and
the next discover reporting the original key is a success that clears the
failure record. -/
theorem claim2_no_evolution_scenario :
    cycleTerminal claim2Cfg claim2State0 ⟨Except.ok [claim2KeyChanged], 10, none⟩ =
      CycleTerminal.reportedFailure ∧
    claim2State1.status.failure =
      some ⟨1, 10,
        { ts := 10, added := [], modified := [⟨[("hey")], ("mules/hey"), false⟩],
          removed := [],
          publishResult := some (JobStatus.buildFailed
            [⟨("mules/hey"), [ChangeReason.keyChange]⟩]),
          errors := [] }⟩ ∧
    claim2State1.model = claim2Model ∧
    claim2State1.status.lastSuccess = none ∧
    claim2State1.history.map HistoryEntry.result =
      [JobStatus.buildFailed [⟨("mules/hey"), [ChangeReason.keyChange]⟩]] ∧
    cycleTerminal claim2Cfg claim2State1 ⟨Except.ok [claim2Orig], 20, none⟩ =
      CycleTerminal.noOpSuccess ∧
    claim2State2.status.failure = none ∧
    claim2State2.status.lastSuccess = some (emptyOutcome 20) := by
  decide

/-- C1: with evolution enabled, a single controller run on an incompatible
key change recreates the collection under the next versioned name
(`_v2` suffix), retargets the capture's binding to it, retargets the
dependent materialization binding with its backfill counter incremented to 1,
records both the failed attempt and the immediately following successful
evolved-and-republished attempt in the (newest-first) publication history,
and ends with the failure record absent. -/
theorem claim1_evolution_scenario :
    cycleTerminal claim1Cfg claim1State0 ⟨Except.ok [claim1Discovered], 50, none⟩ =
      CycleTerminal.publishSuccess ∧
    claim1State1.model.bindings =
      [⟨[("grass")], [(("id"), ("grass"))], ("pikas/alpine-grass_v2"), false⟩] ∧
    lookupKey ("pikas/alpine-grass_v2") claim1State1.model.collections =
      some ⟨2, [("/id"), ("/squeaks")]⟩ ∧
    claim1State1.matBindings = [⟨("pikas/alpine-grass_v2"), 1⟩] ∧
    claim1State1.history.map HistoryEntry.detail =
      [("auto-discover changes (0 added, 1 modified, 0 removed), and re-creating 1 collections"),
       ("auto-discover changes (0 added, 1 modified, 0 removed)")] ∧
    claim1State1.history.map HistoryEntry.result =
      [JobStatus.success,
       JobStatus.buildFailed [⟨("pikas/alpine-grass"), [ChangeReason.keyChange]⟩]] ∧
    claim1State1.status.failure = none ∧
    claim1State1.status.lastSuccess.map DiscoverOutcome.publishResult =
      some (some JobStatus.success) := by
  decide

theorem lookupKey_map_update (m : CaptureModel) (ds : List DiscoveredResource) (t : String)
    (l : List (String × CollectionSpec)) :
    lookupKey t (l.map (fun p =>
      match findMatchedFor m p.fst ds with
      | some d => (p.fst, (⟨d.documentSchema, d.key⟩ : CollectionSpec))
      | none => p)) =
    (lookupKey t l).map (fun c =>
      match findMatchedFor m t ds with
      | some d => (⟨d.documentSchema, d.key⟩ : CollectionSpec)
      | none => c) := by
  induction l with
  | nil => rfl
  | cons p rest ih =>
    obtain ⟨k, c⟩ := p
    by_cases hk : k = t
    · subst hk
      cases hm : findMatchedFor m k ds <;> simp [lookupKey, hm]
    · cases hm : findMatchedFor m k ds <;> simp [lookupKey, hk, ih, hm]

theorem lookupKey_updateCollections (m : CaptureModel) (ds : List DiscoveredResource)
    (t : String) :
    lookupKey t (updateCollections m ds) =
    (lookupKey t m.collections).map (fun c =>
      match findMatchedFor m t ds with
      | some d => (⟨d.documentSchema, d.key⟩ : CollectionSpec)
      | none => c) :=
  lookupKey_map_update m ds t m.collections

theorem keys_updateCollections (m : CaptureModel) (ds : List DiscoveredResource) :
    (updateCollections m ds).map Prod.fst = m.collections.map Prod.fst := by
  unfold updateCollections
  rw [List.map_map]
  apply List.map_congr_left
  intro p hp
  cases hm : findMatchedFor m p.fst ds <;> simp [hm]

theorem findMatchedFor_eq_some {m : CaptureModel} {t : String} {ds : List DiscoveredResource}
    {d : DiscoveredResource} (hd : d ∈ ds) (hmt : matchesTarget m t d = true)
    (huniq : ∀ e ∈ ds, matchesTarget m t e = true → e = d) :
    findMatchedFor m t ds = some d := by
  induction ds with
  | nil => cases hd
  | cons e rest ih =>
    by_cases he : matchesTarget m t e = true
    · have hed : e = d := huniq e (List.mem_cons_self _ _) he
      subst hed
      simp [findMatchedFor, he]
    · simp only [findMatchedFor, if_neg he]
      rcases List.mem_cons.1 hd with rfl | hmem
      · exact absurd hmt he
      · exact ih hmem (fun e' he' hm' => huniq e' (List.mem_cons_of_mem _ he') hm')

theorem mergeIdem_added (cfg : Config) (m : CaptureModel) (ds : List DiscoveredResource) :
    addedChanges cfg (mergeModel cfg m ds) ds = [] := by
  rw [addedChanges, List.filterMap_eq_nil_iff]
  intro d hd
  cases hfi : findByIdentity (resolveIdentity d) (mergeModel cfg m ds).bindings with
  | some b'' => simp [hfi]
  | none =>
    cases hmo : mergeOne cfg m d with
    | some b' =>
      have hb'mem : b' ∈ (mergeBindings cfg m ds).bindings :=
        mem_mergeBindings_bindings.2 ⟨d, hd, hmo⟩
      exact absurd (mergeOne_identity hmo) (findByIdentity_eq_none hfi b' hb'mem)
    | none =>
      simp [hfi, mergeOne_eq_none hmo]

theorem mergeIdem_removed (cfg : Config) (m : CaptureModel) (ds : List DiscoveredResource) :
    removedChanges (mergeModel cfg m ds) ds = [] := by
  rw [removedChanges]
  have h : (mergeModel cfg m ds).bindings.filter
      (fun b => !(identMem b.resourceIdentity (ds.map resolveIdentity))) = [] := by
    rw [List.filter_eq_nil_iff]
    intro b' hb'
    obtain ⟨d, hd, hmo⟩ := mem_mergeBindings_bindings.1 hb'
    have hid := mergeOne_identity hmo
    have hmem : identMem (resolveIdentity d) (ds.map resolveIdentity) = true :=
      identMem_iff.2 (List.mem_map_of_mem resolveIdentity hd)
    simp [hid, hmem]
  rw [h]
  rfl

theorem mergeIdem_modified (cfg : Config) (m : CaptureModel) (ds : List DiscoveredResource)
    (hds : (ds.map resolveIdentity).Nodup)
    (hT : (m.bindings.map Binding.target).Nodup)
    (hWF : ∀ b ∈ m.bindings, (lookupKey b.target m.collections).isSome = true)
    (hF1 : ((newCollections cfg m ds).map Prod.fst).Nodup)
    (hF2 : ∀ t ∈ (newCollections cfg m ds).map Prod.fst, ¬ t ∈ usedNames m) :
    modifiedChanges (mergeModel cfg m ds) ds = [] := by
  rw [modifiedChanges, List.filterMap_eq_nil_iff]
  intro d hd
  cases hfi : findByIdentity (resolveIdentity d) (mergeModel cfg m ds).bindings with
  | none => simp [hfi]
  | some b'' =>
    obtain ⟨hb''mem, hb''id⟩ := findByIdentity_eq_some hfi
    obtain ⟨d', hd', hmo⟩ := mem_mergeBindings_bindings.1 hb''mem
    have hidd : resolveIdentity d' = resolveIdentity d :=
      (mergeOne_identity hmo).symm.trans hb''id
    have hdd : d' = d := List.inj_on_of_nodup_map hds hd' hd hidd
    subst hdd
    suffices hlk : lookupKey b''.target (mergeModel cfg m ds).collections =
        some ⟨d'.documentSchema, d'.key⟩ by
      have hmc : matchedChanged (mergeModel cfg m ds).collections b'' d' = false := by
        rw [matchedChanged, hlk]
        simp
      simp [hfi, hmc]
    rw [mergeOne] at hmo
    cases hf : findByIdentity (resolveIdentity d') m.bindings with
    | some b =>
      rw [hf] at hmo
      cases hmo
      obtain ⟨hbmem, hbid⟩ := findByIdentity_eq_some hf
      have hfmf : findMatchedFor m b.target ds = some d' := by
        apply findMatchedFor_eq_some hd
        · rw [matchesTarget, hf]
          simp
        · intro e he hme
          rw [matchesTarget] at hme
          cases hf' : findByIdentity (resolveIdentity e) m.bindings with
          | none => rw [hf'] at hme; cases hme
          | some b₀ =>
            rw [hf'] at hme
            have hbt : b₀.target = b.target := of_decide_eq_true hme
            obtain ⟨hb₀mem, hb₀id⟩ := findByIdentity_eq_some hf'
            have hb₀b : b₀ = b := List.inj_on_of_nodup_map hT hb₀mem hbmem hbt
            apply List.inj_on_of_nodup_map hds he hd
            rw [← hb₀id, hb₀b, hbid]
      obtain ⟨c₀, hc₀⟩ := Option.isSome_iff_exists.1 (hWF b hbmem)
      have hupd : lookupKey b.target (updateCollections m ds) =
          some ⟨d'.documentSchema, d'.key⟩ := by
        rw [lookupKey_updateCollections, hc₀, hfmf]
        rfl
      show lookupKey b.target (updateCollections m ds ++ newCollections cfg m ds) = _
      rw [lookupKey_append, hupd]
    | none =>
      rw [hf] at hmo
      by_cases ha : cfg.addNewBindings
      · rw [if_pos ha] at hmo
        cases hmo
        have hmem : (newTarget cfg m d', (⟨d'.documentSchema, d'.key⟩ : CollectionSpec)) ∈
            newCollections cfg m ds :=
          List.mem_filterMap.2 ⟨d', hd, by simp [hf, ha]⟩
        have hkeys : newTarget cfg m d' ∈ (newCollections cfg m ds).map Prod.fst :=
          List.mem_map_of_mem Prod.fst hmem
        have hnotused := hF2 _ hkeys
        have hupd : lookupKey (newTarget cfg m d') (updateCollections m ds) = none := by
          apply lookupKey_eq_none_of_not_mem
          rw [keys_updateCollections]
          intro hcontra
          exact hnotused (List.mem_append_left _ hcontra)
        show lookupKey (newTarget cfg m d')
            (updateCollections m ds ++ newCollections cfg m ds) = _
        rw [lookupKey_append, hupd]
        exact lookupKey_of_mem_nodup hF1 hmem
      · simp [ha] at hmo

/-- C3 counterexample: a no-op discover cycle (empty added, modified and
removed lists, no publication) does NOT leave the failure record unchanged —
an existing failure streak is cleared, as the integration test
`test_auto_discovers_no_evolution` expects after the key reverts. -/
theorem claim3_counterexample :
    (mergeBindings claim3CxCfg claim3CxModel [claim3CxRes]).added = [] ∧
    (mergeBindings claim3CxCfg claim3CxModel [claim3CxRes]).modified = [] ∧
    (mergeBindings claim3CxCfg claim3CxModel [claim3CxRes]).removed = [] ∧
    claim3CxState.status.failure = some ⟨1, 0, emptyOutcome 0⟩ ∧
    cycleTerminal claim3CxCfg claim3CxState ⟨Except.ok [claim3CxRes], 5, none⟩ =
      CycleTerminal.noOpSuccess ∧
    (runCycle claim3CxCfg claim3CxState ⟨Except.ok [claim3CxRes], 5, none⟩).status.failure ≠
      claim3CxState.status.failure ∧
    (runCycle claim3CxCfg claim3CxState ⟨Except.ok [claim3CxRes], 5, none⟩).status.failure =
      none := by
  decide

/-- C3 as amended: re-running the merge of an unchanged discovered resource
set against the binding list a previous merge committed yields empty added,
modified and removed lists and triggers no publication; in that no-op case
`lastSuccess` is overwritten with the new timestamp and no publish result,
no history entry is appended, the model is untouched — and the failure
record is cleared (a successful no-op resets any failure streak; it is
unchanged only when it was already absent). -/
theorem claim3_idempotent_noop (cfg : Config) (m : CaptureModel) (ds : List DiscoveredResource)
    (st : ControllerState) (t2 : Nat)
    (hds : (ds.map resolveIdentity).Nodup)
    (hT : (m.bindings.map Binding.target).Nodup)
    (hWF : ∀ b ∈ m.bindings, (lookupKey b.target m.collections).isSome = true)
    (hF1 : ((newCollections cfg m ds).map Prod.fst).Nodup)
    (hF2 : ∀ t ∈ (newCollections cfg m ds).map Prod.fst, ¬ t ∈ usedNames m)
    (hst : st.model = mergeModel cfg m ds) :
    (mergeBindings cfg (mergeModel cfg m ds) ds).added = [] ∧
    (mergeBindings cfg (mergeModel cfg m ds) ds).modified = [] ∧
    (mergeBindings cfg (mergeModel cfg m ds) ds).removed = [] ∧
    cycleTerminal cfg st ⟨Except.ok ds, t2, none⟩ = CycleTerminal.noOpSuccess ∧
    (runCycle cfg st ⟨Except.ok ds, t2, none⟩).history = st.history ∧
    (runCycle cfg st ⟨Except.ok ds, t2, none⟩).model = st.model ∧
    (runCycle cfg st ⟨Except.ok ds, t2, none⟩).matBindings = st.matBindings ∧
    (runCycle cfg st ⟨Except.ok ds, t2, none⟩).status.lastSuccess = some (emptyOutcome t2) ∧
    (runCycle cfg st ⟨Except.ok ds, t2, none⟩).status.failure = none := by
  have ha : (mergeBindings cfg (mergeModel cfg m ds) ds).added = [] :=
    mergeIdem_added cfg m ds
  have hm : (mergeBindings cfg (mergeModel cfg m ds) ds).modified = [] :=
    mergeIdem_modified cfg m ds hds hT hWF hF1 hF2
  have hr : (mergeBindings cfg (mergeModel cfg m ds) ds).removed = [] :=
    mergeIdem_removed cfg m ds
  have hcond : ((mergeBindings cfg st.model ds).added.isEmpty &&
      (mergeBindings cfg st.model ds).modified.isEmpty &&
      (mergeBindings cfg st.model ds).removed.isEmpty) = true := by
    rw [hst, ha, hm, hr]
    rfl
  refine ⟨ha, hm, hr, ?_, ?_, ?_, ?_, ?_, ?_⟩ <;>
    simp [runCycle, cycleTerminal, runCycleT, hcond]

/-- Witness for C3's amended theorem at a concrete two-resource discover
(one matched with a schema change, one added): the recommitted model merges
to an empty outcome, the cycle is a no-op, and the pre-existing failure
streak is cleared. -/
theorem claim3_witness :
    (mergeBindings claim3Cfg (mergeModel claim3Cfg claim3Live claim3Ds) claim3Ds).added = [] ∧
    (mergeBindings claim3Cfg (mergeModel claim3Cfg claim3Live claim3Ds) claim3Ds).modified = [] ∧
    (mergeBindings claim3Cfg (mergeModel claim3Cfg claim3Live claim3Ds) claim3Ds).removed = [] ∧
    cycleTerminal claim3Cfg claim3State ⟨Except.ok claim3Ds, 9, none⟩ =
      CycleTerminal.noOpSuccess ∧
    (runCycle claim3Cfg claim3State ⟨Except.ok claim3Ds, 9, none⟩).history =
      claim3State.history ∧
    (runCycle claim3Cfg claim3State ⟨Except.ok claim3Ds, 9, none⟩).model =
      claim3State.model ∧
    (runCycle claim3Cfg claim3State ⟨Except.ok claim3Ds, 9, none⟩).matBindings =
      claim3State.matBindings ∧
    (runCycle claim3Cfg claim3State ⟨Except.ok claim3Ds, 9, none⟩).status.lastSuccess =
      some (emptyOutcome 9) ∧
    (runCycle claim3Cfg claim3State ⟨Except.ok claim3Ds, 9, none⟩).status.failure = none :=
  claim3_idempotent_noop claim3Cfg claim3Live claim3Ds claim3State 9
    (by decide) (by decide) (by decide) (by decide) (by decide) (by decide)

end AutoDiscover
